import Mathlib

/-!
# Pizza order form (`frontend/components/Form.js`)

A shallow embedding of the `Form` component: its state (the six `useState`
cells), the validation effect, the three event handlers and the confirmation
message, together with the part of the `yup` string schema the component uses.

JavaScript strings are embedded as Lean strings.  Two JavaScript notions differ
from the Lean ones and are defined here explicitly:

* `jsLength` is `String.prototype.length`, the number of UTF-16 code units;
* `jsTrim` is `String.prototype.trim`, which strips the ECMAScript `WhiteSpace`
  and `LineTerminator` code points from both ends.

A Lean string is a sequence of Unicode scalar values, so the embedding covers
the JavaScript strings without unpaired surrogates.

`yup` is an external library whose sources are not part of the component.  The
section on it renders the documented behaviour of the calls the component
makes: `string()`, `min`, `max`, `trim`, `oneOf` and `validate` with
`abortEarly: false`.
-/

set_option autoImplicit false

namespace PizzaForm

/-! ## JavaScript string primitives -/

/-- Number of UTF-16 code units of one code point. -/
def utf16Units (c : Char) : Nat :=
  if c.toNat < 0x10000 then 1 else 2

/-- The value of `s.length` in JavaScript: the number of UTF-16 code units. -/
def jsLength (s : String) : Nat :=
  (s.data.map utf16Units).sum

/-- Code points removed by `String.prototype.trim`: ECMAScript `WhiteSpace`
(TAB, VT, FF, ZWNBSP and the Unicode space separators) and `LineTerminator`
(LF, CR, LS, PS). -/
def isJsWhitespace (c : Char) : Bool :=
  let n := c.toNat
  n == 0x09 || n == 0x0A || n == 0x0B || n == 0x0C || n == 0x0D || n == 0x20 ||
  n == 0xA0 || n == 0x1680 || (0x2000 ≤ n && n ≤ 0x200A) || n == 0x2028 ||
  n == 0x2029 || n == 0x202F || n == 0x205F || n == 0x3000 || n == 0xFEFF

/-- Characters left after removing leading and trailing whitespace. -/
def trimChars (l : List Char) : List Char :=
  ((l.dropWhile isJsWhitespace).reverse.dropWhile isJsWhitespace).reverse

/-- The value of `s.trim()` in JavaScript. -/
def jsTrim (s : String) : String :=
  ⟨trimChars s.data⟩

/-- Rendering of a non-negative integer inside a template literal. -/
def jsNumberToString (n : Nat) : String :=
  Nat.repr n

/-! ## The part of `yup` used by the schema -/

namespace Yup

/-- One entry of `ValidationError.inner`: the field path and the message. -/
structure ValidationError where
  path : String
  message : String
  deriving DecidableEq, Repr

/-- A string schema: the transforms applied by `cast`, the tests run on the
cast value (a test answers `none` when it passes and the message when it
fails) and the `oneOf` whitelist with its message. -/
structure StringSchema where
  transforms : List (String → String)
  tests : List (String → String → Option String)
  whitelist : Option (List String × String)

/-- The schema `yup.string()`. -/
def string : StringSchema :=
  { transforms := [], tests := [], whitelist := none }

/-- The schema `.min(n, message)`: the test `value.length >= n`. -/
def StringSchema.min (s : StringSchema) (n : Nat) (message : String) : StringSchema :=
  { s with tests := s.tests ++ [fun _ v => if n ≤ jsLength v then none else some message] }

/-- The schema `.max(n, message)`: the test `value.length <= n`. -/
def StringSchema.max (s : StringSchema) (n : Nat) (message : String) : StringSchema :=
  { s with tests := s.tests ++ [fun _ v => if jsLength v ≤ n then none else some message] }

/-- The schema `.trim()`: the transform `value.trim()` and the test
`value === value.trim()` with the default message of the locale. -/
def StringSchema.trim (s : StringSchema) : StringSchema :=
  { s with
    transforms := s.transforms ++ [jsTrim]
    tests := s.tests ++
      [fun path v => if v = jsTrim v then none else some (path ++ " must be a trimmed string")] }

/-- The schema `.oneOf(values, message)`. -/
def StringSchema.oneOf (s : StringSchema) (values : List String) (message : String) :
    StringSchema :=
  { s with whitelist := some (values, message) }

/-- The transforms of the schema applied in order of declaration. -/
def StringSchema.cast (s : StringSchema) (value : String) : String :=
  s.transforms.foldl (fun v t => t v) value

/-- Validation of one field with `abortEarly: false` in non-strict mode: the
value is cast, then the whitelist is checked; when the whitelist rejects the
value its error is the only one, otherwise every test runs and every failure
is reported. -/
def StringSchema.validate (s : StringSchema) (path : String) (value : String) :
    List ValidationError :=
  let v := s.cast value
  let initialErrors : List ValidationError :=
    match s.whitelist with
    | some (values, message) => if values.contains v then [] else [⟨path, message⟩]
    | none => []
  if initialErrors.isEmpty then
    s.tests.filterMap fun t => (t path v).map fun m => ⟨path, m⟩
  else
    initialErrors

end Yup

/-! ## The component -/

/-- The constant `validationErrors.fullNameTooShort`. -/
def validationErrors.fullNameTooShort : String := "full name must be at least 3 characters"

/-- The constant `validationErrors.fullNameTooLong`. -/
def validationErrors.fullNameTooLong : String := "full name must be at most 20 characters"

/-- The constant `validationErrors.sizeIncorrect`. -/
def validationErrors.sizeIncorrect : String := "size must be S or M or L"

/-- The `fullName` field of `validationSchema`. -/
def validationSchema.fullName : Yup.StringSchema :=
  ((Yup.string.min 3 validationErrors.fullNameTooShort).max 20
    validationErrors.fullNameTooLong).trim

/-- The `size` field of `validationSchema`. -/
def validationSchema.size : Yup.StringSchema :=
  Yup.string.oneOf ["S", "M", "L"] validationErrors.sizeIncorrect

/-- The state cell `formData`. -/
structure FormData where
  fullName : String
  size : String
  toppings : List String
  deriving DecidableEq, Repr

/-- The call `validationSchema.validate(formData, { abortEarly: false })`: the
list is `inner` of the thrown error, empty when the promise resolves. -/
def validationSchema.validate (d : FormData) : List Yup.ValidationError :=
  validationSchema.fullName.validate "fullName" d.fullName ++
    validationSchema.size.validate "size" d.size

/-- A JavaScript object with string values, as an association list in insertion
order. -/
abbrev ErrorMap := List (String × String)

/-- The assignment `obj[key] = value`. -/
def ErrorMap.set : ErrorMap → String → String → ErrorMap
  | [], k, v => [(k, v)]
  | (k0, v0) :: rest, k, v =>
    if k0 = k then (k, v) :: rest else (k0, v0) :: ErrorMap.set rest k v

/-- The read `obj[key]`, `none` for `undefined`. -/
def ErrorMap.get : ErrorMap → String → Option String
  | [], _ => none
  | (k0, v0) :: rest, k => if k0 = k then some v0 else ErrorMap.get rest k

/-- The six state cells of the component. -/
structure State where
  formData : FormData
  errors : ErrorMap
  formIsValid : Bool
  submissionStatus : Option String
  submittedData : Option FormData
  toppingsError : Bool
  deriving DecidableEq, Repr

/-- The constant `initialFormData`. -/
def initialFormData : FormData :=
  { fullName := "", size := "", toppings := [] }

/-- The state of the component at its first render. -/
def initialState : State :=
  { formData := initialFormData
    errors := []
    formIsValid := false
    submissionStatus := none
    submittedData := none
    toppingsError := false }

/-- The effect body `validateForm`, run on the `formData` of the state. -/
def validateForm (s : State) : State :=
  let inner := validationSchema.validate s.formData
  let s1 : State :=
    if inner.isEmpty then
      { s with formIsValid := true, errors := [] }
    else
      { s with
        formIsValid := false
        errors := inner.foldl (fun formErrors error => formErrors.set error.path error.message) [] }
  if s1.formData.toppings.length = 0 then
    { s1 with toppingsError := true }
  else
    { s1 with toppingsError := false }

/-- The `name` attribute of an input that carries `onChange={handleChange}`:
the text input `name='fullName'` and the select `name='size'`.  The topping
checkboxes carry `handleToppingChange` instead. -/
inductive InputName where
  | fullName
  | size
  deriving DecidableEq, Repr

/-- The handler `handleChange`: the write `{...formData, [evt.target.name]:
evt.target.value}`, with `evt.target.name` the name attribute of the input
that fired the event.  The key is typed by the inputs the handler is attached
to; the other keys of the form data are never the name of such an input. -/
def handleChange (name : InputName) (value : String) (s : State) : State :=
  match name with
  | .fullName => { s with formData := { s.formData with fullName := value } }
  | .size => { s with formData := { s.formData with size := value } }

/-- The handler `handleToppingChange` with `evt.target` destructured. -/
def handleToppingChange (name : String) (checked : Bool) (s : State) : State :=
  if checked then
    { s with formData := { s.formData with toppings := s.formData.toppings ++ [name] } }
  else
    { s with
      formData :=
        { s.formData with toppings := s.formData.toppings.filter fun topping => topping ≠ name } }

/-- The handler `handleSubmit`. -/
def handleSubmit (s : State) : State :=
  if s.formIsValid then
    { s with
      submissionStatus := some "success"
      submittedData := some s.formData
      formData := initialFormData
      formIsValid := false
      errors := [] }
  else
    { s with submissionStatus := some "error" }

/-- The function `getSuccessMessage`, `none` for `null`. -/
def getSuccessMessage (s : State) : Option String :=
  match s.submittedData with
  | none => none
  | some d =>
    let sizeText := if d.size = "S" then "small" else if d.size = "M" then "medium" else "large"
    if d.toppings.length = 0 then
      some ("Thank you for your order, " ++ d.fullName ++ "! Your " ++ sizeText ++
        " pizza with no toppings is on the way.")
    else if d.toppings.length = 1 then
      some ("Thank you for your order, " ++ d.fullName ++ "! Your " ++ sizeText ++
        " pizza with 1 topping is on the way.")
    else
      some ("Thank you for your order, " ++ d.fullName ++ "! Your " ++ sizeText ++
        " pizza with " ++ jsNumberToString d.toppings.length ++ " toppings is on the way.")

/-- The click on the checkbox of a topping: the checkbox is controlled by
`formData.toppings.includes(label)`, so the event carries the negation of the
current membership. -/
def clickTopping (label : String) (s : State) : State :=
  handleToppingChange label (!s.formData.toppings.contains label) s

/-- An event of the rendered form: a change of one of the two inputs wired to
`handleChange`, a click on the checkbox of a topping, a run of the validation
effect, a submit.  The effect is an event of its own, so the sequences in
which it runs after every change of the form data are among the sequences
covered. -/
inductive Event where
  | change (name : InputName) (value : String)
  | click (label : String)
  | effect
  | submit
  deriving DecidableEq, Repr

/-- The state after one event. -/
def step (s : State) : Event → State
  | .change name value => handleChange name value s
  | .click label => clickTopping label s
  | .effect => validateForm s
  | .submit => handleSubmit s

/-- The state after a sequence of events on the first render. -/
def run (events : List Event) : State :=
  events.foldl step initialState

/-! ## Auxiliary definitions for the statements -/

/-- The entries the effect stores for the `fullName` field. -/
def fullNameErrors (d : FormData) : ErrorMap :=
  if jsLength (jsTrim d.fullName) < 3 then [("fullName", validationErrors.fullNameTooShort)]
  else if 20 < jsLength (jsTrim d.fullName) then [("fullName", validationErrors.fullNameTooLong)]
  else []

/-- The entries the effect stores for the `size` field. -/
def sizeErrors (d : FormData) : ErrorMap :=
  if d.size = "S" ∨ d.size = "M" ∨ d.size = "L" then []
  else [("size", validationErrors.sizeIncorrect)]

/-- The size word of the confirmation, as the specification gives it. -/
def sizeWord (size : String) : Option String :=
  if size = "S" then some "small"
  else if size = "M" then some "medium"
  else if size = "L" then some "large"
  else none

/-- The topping phrase of the confirmation, as the specification gives it. -/
def toppingsPhrase : Nat → String
  | 0 => "no toppings"
  | 1 => "1 topping"
  | n + 2 => Nat.repr (n + 2) ++ " toppings"

/-! ## Facts about trimming -/

theorem dropWhile_head_false (p : Char → Bool) (l : List Char) :
    l.dropWhile p = [] ∨ ∃ a t, l.dropWhile p = a :: t ∧ p a = false := by
  induction l with
  | nil => exact Or.inl rfl
  | cons a t ih =>
    by_cases h : p a = true
    · simpa [List.dropWhile_cons, h] using ih
    · exact Or.inr ⟨a, t, by simp [List.dropWhile_cons, h], by simpa using h⟩

theorem dropWhile_rdropWhile_of_head (p : Char → Bool) (a : Char) (t : List Char)
    (ha : p a = false) :
    (List.rdropWhile p (a :: t)).dropWhile p = List.rdropWhile p (a :: t) := by
  have hp : List.rdropWhile p (a :: t) <+: a :: t := List.rdropWhile_prefix p _
  obtain ⟨r, hr⟩ := hp
  cases hm : List.rdropWhile p (a :: t) with
  | nil => rfl
  | cons b u =>
    rw [hm] at hr
    have hb : b = a := by
      simp only [List.cons_append, List.cons.injEq] at hr
      exact hr.1
    subst hb
    simp [List.dropWhile_cons, ha]

theorem trimChars_eq (l : List Char) :
    trimChars l = List.rdropWhile isJsWhitespace (l.dropWhile isJsWhitespace) := rfl

theorem trimChars_idem (l : List Char) : trimChars (trimChars l) = trimChars l := by
  rw [trimChars_eq, trimChars_eq]
  have h : (List.rdropWhile isJsWhitespace (l.dropWhile isJsWhitespace)).dropWhile
      isJsWhitespace = List.rdropWhile isJsWhitespace (l.dropWhile isJsWhitespace) := by
    rcases dropWhile_head_false isJsWhitespace l with h0 | ⟨a, t, h1, h2⟩
    · rw [h0]; rfl
    · rw [h1]; exact dropWhile_rdropWhile_of_head _ a t h2
  rw [h, List.rdropWhile_idempotent]

theorem jsTrim_idem (s : String) : jsTrim (jsTrim s) = jsTrim s := by
  simp [jsTrim, trimChars_idem]

theorem trimChars_pad (pre l post : List Char)
    (hpre : ∀ c ∈ pre, isJsWhitespace c = true) (hpost : ∀ c ∈ post, isJsWhitespace c = true) :
    trimChars (pre ++ l ++ post) = trimChars l := by
  have hrev : ∀ c ∈ post.reverse, isJsWhitespace c = true := by
    intro c hc; exact hpost c (List.mem_reverse.mp hc)
  unfold trimChars
  rw [List.append_assoc, List.dropWhile_append_of_pos hpre, List.dropWhile_append]
  by_cases h : (List.dropWhile isJsWhitespace l).isEmpty = true
  · have hl : List.dropWhile isJsWhitespace l = [] := by simpa using h
    have hp : List.dropWhile isJsWhitespace post = [] := by
      simpa [List.dropWhile_eq_nil_iff] using hpost
    simp [hl, hp]
  · simp only [h, Bool.false_eq_true, if_false, List.reverse_append]
    rw [List.dropWhile_append_of_pos hrev]

/-! ## What the schema reports -/

theorem validationSchema_fullName_validate (v : String) :
    validationSchema.fullName.validate "fullName" v =
      if jsLength (jsTrim v) < 3 then [⟨"fullName", validationErrors.fullNameTooShort⟩]
      else if 20 < jsLength (jsTrim v) then [⟨"fullName", validationErrors.fullNameTooLong⟩]
      else [] := by
  simp only [validationSchema.fullName, Yup.StringSchema.validate, Yup.StringSchema.trim,
    Yup.StringSchema.max, Yup.StringSchema.min, Yup.string, Yup.StringSchema.cast,
    List.nil_append, List.foldl_cons, List.foldl_nil, List.isEmpty_nil, if_true,
    List.cons_append, List.filterMap_cons, List.filterMap_nil, jsTrim_idem]
  by_cases h1 : jsLength (jsTrim v) < 3
  · have h2 : ¬ 3 ≤ jsLength (jsTrim v) := by omega
    have h3 : jsLength (jsTrim v) ≤ 20 := by omega
    simp [h1, h2, h3]
  · have h2 : 3 ≤ jsLength (jsTrim v) := by omega
    by_cases h3 : 20 < jsLength (jsTrim v)
    · have h4 : ¬ jsLength (jsTrim v) ≤ 20 := by omega
      simp [h1, h2, h3, h4]
    · have h4 : jsLength (jsTrim v) ≤ 20 := by omega
      simp [h1, h2, h3, h4]

theorem validationSchema_size_validate (v : String) :
    validationSchema.size.validate "size" v =
      if v = "S" ∨ v = "M" ∨ v = "L" then [] else [⟨"size", validationErrors.sizeIncorrect⟩] := by
  simp only [validationSchema.size, Yup.StringSchema.validate, Yup.StringSchema.oneOf, Yup.string,
    Yup.StringSchema.cast, List.foldl_nil]
  by_cases h : v = "S" ∨ v = "M" ∨ v = "L"
  · rcases h with h | h | h <;> subst h <;> decide
  · have hc : (["S", "M", "L"] : List String).contains v = false := by
      simp only [not_or] at h
      simp [h.1, h.2.1, h.2.2]
    simp [h, hc]

/-! ## What the validation effect computes -/

theorem validateForm_formData (s : State) : (validateForm s).formData = s.formData := by
  unfold validateForm
  simp only []
  split_ifs <;> rfl

theorem validateForm_submissionStatus (s : State) :
    (validateForm s).submissionStatus = s.submissionStatus := by
  unfold validateForm
  simp only []
  split_ifs <;> rfl

theorem validateForm_submittedData (s : State) :
    (validateForm s).submittedData = s.submittedData := by
  unfold validateForm
  simp only []
  split_ifs <;> rfl

theorem validateForm_toppingsError (s : State) :
    (validateForm s).toppingsError = decide (s.formData.toppings = []) := by
  unfold validateForm
  simp only []
  split_ifs with h1 h2 h2 <;> simp_all

theorem validateForm_errors (s : State) :
    (validateForm s).errors = fullNameErrors s.formData ++ sizeErrors s.formData := by
  have hne : ("fullName" : String) ≠ "size" := by decide
  unfold validateForm
  simp only [validationSchema.validate, validationSchema_fullName_validate,
    validationSchema_size_validate,
    fullNameErrors, sizeErrors]
  split_ifs <;> simp_all [ErrorMap.set]

theorem validateForm_formIsValid (s : State) :
    (validateForm s).formIsValid =
      decide (fullNameErrors s.formData ++ sizeErrors s.formData = []) := by
  unfold validateForm
  simp only [validationSchema.validate, validationSchema_fullName_validate,
    validationSchema_size_validate,
    fullNameErrors, sizeErrors]
  split_ifs <;> simp_all

theorem fullNameErrors_eq_nil (d : FormData) :
    fullNameErrors d = [] ↔
      3 ≤ jsLength (jsTrim d.fullName) ∧ jsLength (jsTrim d.fullName) ≤ 20 := by
  unfold fullNameErrors
  split_ifs <;> simp <;> omega

theorem sizeErrors_eq_nil (d : FormData) :
    sizeErrors d = [] ↔ (d.size = "S" ∨ d.size = "M" ∨ d.size = "L") := by
  unfold sizeErrors
  split_ifs with h <;> simp [h]

theorem validateForm_formIsValid_iff (s : State) :
    (validateForm s).formIsValid = true ↔
      (3 ≤ jsLength (jsTrim s.formData.fullName) ∧ jsLength (jsTrim s.formData.fullName) ≤ 20) ∧
      (s.formData.size = "S" ∨ s.formData.size = "M" ∨ s.formData.size = "L") := by
  rw [validateForm_formIsValid, decide_eq_true_iff, List.append_eq_nil, fullNameErrors_eq_nil,
    sizeErrors_eq_nil]

theorem validateForm_errors_get_fullName (s : State) :
    (validateForm s).errors.get "fullName" =
      if jsLength (jsTrim s.formData.fullName) < 3 then some validationErrors.fullNameTooShort
      else if 20 < jsLength (jsTrim s.formData.fullName) then some validationErrors.fullNameTooLong
      else none := by
  have hne : ¬ ("size" : String) = "fullName" := by decide
  rw [validateForm_errors]
  unfold fullNameErrors sizeErrors
  split_ifs <;> simp [ErrorMap.get, hne]

theorem validateForm_errors_get_size (s : State) :
    (validateForm s).errors.get "size" =
      if s.formData.size = "S" ∨ s.formData.size = "M" ∨ s.formData.size = "L" then none
      else some validationErrors.sizeIncorrect := by
  have hne : ¬ ("fullName" : String) = "size" := by decide
  rw [validateForm_errors]
  unfold fullNameErrors sizeErrors
  split_ifs <;> simp [ErrorMap.get, hne]

/-! ## Events preserve distinct toppings -/

theorem toppings_no_duplicates_step (s : State) (e : Event)
    (h : s.formData.toppings.Nodup ∧ ∀ d, s.submittedData = some d → d.toppings.Nodup) :
    (step s e).formData.toppings.Nodup ∧
      ∀ d, (step s e).submittedData = some d → d.toppings.Nodup := by
  obtain ⟨h1, h2⟩ := h
  cases e with
  | change name value =>
    cases name <;> exact ⟨h1, h2⟩
  | click label =>
    simp only [step, clickTopping, handleToppingChange]
    by_cases hc : s.formData.toppings.contains label = true
    · simp only [hc, Bool.not_true, Bool.false_eq_true, if_false]
      exact ⟨h1.filter _, h2⟩
    · have hmem : label ∉ s.formData.toppings := by simpa using hc
      simp only [hc, Bool.not_false, if_true]
      refine ⟨?_, h2⟩
      rw [List.nodup_append]
      exact ⟨h1, List.nodup_singleton _, by simpa using hmem⟩
  | effect =>
    simp only [step, validateForm_formData, validateForm_submittedData]
    exact ⟨h1, h2⟩
  | submit =>
    simp only [step, handleSubmit]
    split_ifs
    · refine ⟨List.nodup_nil, ?_⟩
      intro d hd
      simp only [Option.some.injEq] at hd
      subst hd
      exact h1
    · exact ⟨h1, h2⟩

theorem toppings_no_duplicates_run (events : List Event) :
    (run events).formData.toppings.Nodup ∧
      ∀ d, (run events).submittedData = some d → d.toppings.Nodup := by
  unfold run
  induction events using List.reverseRecOn with
  | nil => exact ⟨List.nodup_nil, by simp [initialState]⟩
  | append_singleton es e ih =>
    rw [List.foldl_append]
    exact toppings_no_duplicates_step _ e ih

/-! ## The confirmation of a stored snapshot -/

theorem getSuccessMessage_of_snapshot (s : State) (d : FormData)
    (hs : s.submittedData = some d) :
    getSuccessMessage s =
      some ("Thank you for your order, " ++ d.fullName ++ "! Your " ++
        (sizeWord d.size).getD "large" ++ " pizza with " ++
        toppingsPhrase d.toppings.length ++ " is on the way.") := by
  have hw : (if d.size = "S" then "small" else if d.size = "M" then "medium" else "large") =
      (sizeWord d.size).getD "large" := by
    unfold sizeWord
    split_ifs <;> rfl
  have e0 : " pizza with " ++ "no toppings" ++ " is on the way." =
      " pizza with no toppings is on the way." := by decide
  have e1 : " pizza with " ++ "1 topping" ++ " is on the way." =
      " pizza with 1 topping is on the way." := by decide
  have e2 : (" toppings" : String) ++ " is on the way." = " toppings is on the way." := by decide
  unfold getSuccessMessage
  rw [hs]
  simp only [hw]
  match hd : d.toppings with
  | [] => simp [toppingsPhrase, String.append_assoc, e0]
  | [_] => simp [toppingsPhrase, String.append_assoc, e1]
  | _ :: _ :: t => simp [toppingsPhrase, String.append_assoc, e2, jsNumberToString]

/-! ## Claims -/

/-- C1, as stated, fails: with a valid name and size and no topping the
validated form submits successfully, stores the snapshot and produces the
confirmation with the phrase for zero toppings. -/
theorem submit_zero_toppings_succeeds :
    (validateForm { initialState with formData := ⟨"Jane Doe", "M", []⟩ }).formData.toppings = [] ∧
    (handleSubmit (validateForm
      { initialState with formData := ⟨"Jane Doe", "M", []⟩ })).submissionStatus = some "success" ∧
    (handleSubmit (validateForm
      { initialState with formData := ⟨"Jane Doe", "M", []⟩ })).submissionStatus ≠ some "error" ∧
    (handleSubmit (validateForm
      { initialState with formData := ⟨"Jane Doe", "M", []⟩ })).submittedData =
        some ⟨"Jane Doe", "M", []⟩ ∧
    getSuccessMessage (handleSubmit (validateForm
      { initialState with formData := ⟨"Jane Doe", "M", []⟩ })) =
        some "Thank you for your order, Jane Doe! Your medium pizza with no toppings is on the way." := by
  decide

/-- C1, amended: for every form state with no topping the validation effect
raises the toppings flag; the submit of the validated state fails, and keeps
the stored snapshot as it was, when the name or the size is invalid, and
succeeds with the snapshot of the form when both are valid. -/
theorem submit_without_toppings (s : State) (h : s.formData.toppings = []) :
    (validateForm s).toppingsError = true ∧
    (¬ ((3 ≤ jsLength (jsTrim s.formData.fullName) ∧ jsLength (jsTrim s.formData.fullName) ≤ 20) ∧
        (s.formData.size = "S" ∨ s.formData.size = "M" ∨ s.formData.size = "L")) →
      (handleSubmit (validateForm s)).submissionStatus = some "error" ∧
      (handleSubmit (validateForm s)).submittedData = s.submittedData) ∧
    (((3 ≤ jsLength (jsTrim s.formData.fullName) ∧ jsLength (jsTrim s.formData.fullName) ≤ 20) ∧
        (s.formData.size = "S" ∨ s.formData.size = "M" ∨ s.formData.size = "L")) →
      (handleSubmit (validateForm s)).submissionStatus = some "success" ∧
      (handleSubmit (validateForm s)).submittedData = some s.formData) := by
  refine ⟨?_, ?_, ?_⟩
  · rw [validateForm_toppingsError]; simp [h]
  · intro hbad
    have hv : (validateForm s).formIsValid = false := by
      rw [← Bool.not_eq_true]
      exact fun hval => hbad ((validateForm_formIsValid_iff s).mp hval)
    simp [handleSubmit, hv, validateForm_submittedData]
  · intro hok
    have hv : (validateForm s).formIsValid = true := (validateForm_formIsValid_iff s).mpr hok
    simp [handleSubmit, hv, validateForm_formData]

/-- C1, amended, at a short name and at a valid name. -/
theorem submit_without_toppings_witness :
    (validateForm { initialState with formData := ⟨"Jo", "M", []⟩ }).toppingsError = true ∧
    ((handleSubmit (validateForm
        { initialState with formData := ⟨"Jo", "M", []⟩ })).submissionStatus = some "error" ∧
      (handleSubmit (validateForm
        { initialState with formData := ⟨"Jo", "M", []⟩ })).submittedData = none) ∧
    ((handleSubmit (validateForm
        { initialState with formData := ⟨"Joan", "L", []⟩ })).submissionStatus = some "success" ∧
      (handleSubmit (validateForm
        { initialState with formData := ⟨"Joan", "L", []⟩ })).submittedData =
          some ⟨"Joan", "L", []⟩) :=
  ⟨(submit_without_toppings { initialState with formData := ⟨"Jo", "M", []⟩ } rfl).1,
   (submit_without_toppings { initialState with formData := ⟨"Jo", "M", []⟩ } rfl).2.1
     (by decide),
   (submit_without_toppings { initialState with formData := ⟨"Joan", "L", []⟩ } rfl).2.2
     (by decide)⟩

/-- C2, as stated, fails: on a form with a valid name and size and no topping
the validation effect sets the validity flag although the toppings list is
empty. -/
theorem valid_flag_without_toppings :
    (validateForm { initialState with formData := ⟨"Bob", "L", []⟩ }).formIsValid = true ∧
    (validateForm { initialState with formData := ⟨"Bob", "L", []⟩ }).formData.toppings = [] ∧
    ¬ ((validateForm { initialState with formData := ⟨"Bob", "L", []⟩ }).formIsValid = true ↔
        ((validateForm { initialState with formData := ⟨"Bob", "L", []⟩ }).errors = [] ∧
         (validateForm { initialState with formData := ⟨"Bob", "L", []⟩ }).formData.toppings ≠ [])) := by
  decide

/-- C2, amended: for every form state, after the validation effect the
validity flag is true exactly when the errors map is empty, which is exactly
when the name and the size pass the schema; the toppings are reported by the
separate flag, which is true exactly when the toppings list is empty. -/
theorem validity_invariant (s : State) :
    ((validateForm s).formIsValid = true ↔ (validateForm s).errors = []) ∧
    ((validateForm s).errors = [] ↔
      ((3 ≤ jsLength (jsTrim s.formData.fullName) ∧ jsLength (jsTrim s.formData.fullName) ≤ 20) ∧
       (s.formData.size = "S" ∨ s.formData.size = "M" ∨ s.formData.size = "L"))) ∧
    ((validateForm s).toppingsError = true ↔ (validateForm s).formData.toppings = []) := by
  refine ⟨?_, ?_, ?_⟩
  · rw [validateForm_formIsValid, validateForm_errors, decide_eq_true_iff]
  · rw [← validateForm_formIsValid_iff, validateForm_formIsValid, validateForm_errors,
      decide_eq_true_iff]
  · rw [validateForm_toppingsError, validateForm_formData, decide_eq_true_iff]

/-- C3: for every form state, a trimmed name shorter than 3 makes validation
fail with the message for a short name, a trimmed name longer than 20 makes it
fail with the message for a long name, and whitespace added in front of or
behind the name changes neither the validity flag nor the errors. -/
theorem fullName_length_rule (s : State) :
    (jsLength (jsTrim s.formData.fullName) < 3 →
      (validateForm s).formIsValid = false ∧
      (validateForm s).errors.get "fullName" = some "full name must be at least 3 characters") ∧
    (20 < jsLength (jsTrim s.formData.fullName) →
      (validateForm s).formIsValid = false ∧
      (validateForm s).errors.get "fullName" = some "full name must be at most 20 characters") ∧
    (∀ pre post : String,
      (∀ c ∈ pre.data, isJsWhitespace c = true) → (∀ c ∈ post.data, isJsWhitespace c = true) →
      (validateForm { s with formData :=
          { s.formData with fullName := pre ++ s.formData.fullName ++ post } }).formIsValid =
        (validateForm s).formIsValid ∧
      (validateForm { s with formData :=
          { s.formData with fullName := pre ++ s.formData.fullName ++ post } }).errors =
        (validateForm s).errors) := by
  refine ⟨?_, ?_, ?_⟩
  · intro h
    refine ⟨?_, ?_⟩
    · rw [← Bool.not_eq_true, validateForm_formIsValid_iff]; omega
    · rw [validateForm_errors_get_fullName, if_pos h]; rfl
  · intro h
    refine ⟨?_, ?_⟩
    · rw [← Bool.not_eq_true, validateForm_formIsValid_iff]; omega
    · rw [validateForm_errors_get_fullName, if_neg (by omega), if_pos h]; rfl
  · intro pre post hpre hpost
    have ht : jsTrim (pre ++ s.formData.fullName ++ post) = jsTrim s.formData.fullName := by
      simp only [jsTrim, String.data_append]
      rw [trimChars_pad _ _ _ hpre hpost]
    simp only [validateForm_formIsValid, validateForm_errors, fullNameErrors, sizeErrors, ht,
      and_self]

/-- C3 at a short padded name, a long name and a padded valid name. -/
theorem fullName_length_rule_witness :
    ((validateForm { initialState with formData := ⟨"  Al \n", "M", ["Ham"]⟩ }).formIsValid = false ∧
      (validateForm { initialState with formData := ⟨"  Al \n", "M", ["Ham"]⟩ }).errors.get
        "fullName" = some "full name must be at least 3 characters") ∧
    ((validateForm { initialState with
        formData := ⟨"Bartholomew Fitzgerald", "M", ["Ham"]⟩ }).formIsValid = false ∧
      (validateForm { initialState with
        formData := ⟨"Bartholomew Fitzgerald", "M", ["Ham"]⟩ }).errors.get
        "fullName" = some "full name must be at most 20 characters") ∧
    ((validateForm { initialState with
        formData := ⟨" \t" ++ "Jane Doe" ++ "  ", "M", ["Ham"]⟩ }).formIsValid =
      (validateForm { initialState with formData := ⟨"Jane Doe", "M", ["Ham"]⟩ }).formIsValid ∧
     (validateForm { initialState with
        formData := ⟨" \t" ++ "Jane Doe" ++ "  ", "M", ["Ham"]⟩ }).errors =
      (validateForm { initialState with formData := ⟨"Jane Doe", "M", ["Ham"]⟩ }).errors) :=
  ⟨(fullName_length_rule { initialState with formData := ⟨"  Al \n", "M", ["Ham"]⟩ }).1
      (by decide),
   (fullName_length_rule { initialState with
      formData := ⟨"Bartholomew Fitzgerald", "M", ["Ham"]⟩ }).2.1 (by decide),
   (fullName_length_rule { initialState with formData := ⟨"Jane Doe", "M", ["Ham"]⟩ }).2.2
      " \t" "  " (by decide) (by decide)⟩

/-- C4: for every form state whose size is not S, M or L the validation effect
clears the validity flag and stores the size message under the size key. -/
theorem size_rule (s : State)
    (h : ¬ (s.formData.size = "S" ∨ s.formData.size = "M" ∨ s.formData.size = "L")) :
    (validateForm s).formIsValid = false ∧
    (validateForm s).errors.get "size" = some "size must be S or M or L" := by
  refine ⟨?_, ?_⟩
  · rw [← Bool.not_eq_true, validateForm_formIsValid_iff]
    exact fun hv => h hv.2
  · rw [validateForm_errors_get_size, if_neg h]; rfl

/-- C4 at the empty size of the initial state and at a lower-case size. -/
theorem size_rule_witness :
    ((validateForm initialState).formIsValid = false ∧
      (validateForm initialState).errors.get "size" = some "size must be S or M or L") ∧
    ((validateForm { initialState with
        formData := ⟨"Jane Doe", "s", ["Ham"]⟩ }).formIsValid = false ∧
      (validateForm { initialState with
        formData := ⟨"Jane Doe", "s", ["Ham"]⟩ }).errors.get "size" =
        some "size must be S or M or L") :=
  ⟨size_rule initialState (by decide),
   size_rule { initialState with formData := ⟨"Jane Doe", "s", ["Ham"]⟩ } (by decide)⟩

/-- C5: for every form state with a trimmed name of length 3 to 20, a size
among S, M, L and at least one topping, the validation effect yields no error,
sets the validity flag, clears the toppings flag, and the submit of the
validated state succeeds. -/
theorem valid_input_accepted (s : State)
    (hname : 3 ≤ jsLength (jsTrim s.formData.fullName) ∧
      jsLength (jsTrim s.formData.fullName) ≤ 20)
    (hsize : s.formData.size = "S" ∨ s.formData.size = "M" ∨ s.formData.size = "L")
    (htop : s.formData.toppings ≠ []) :
    (validateForm s).errors = [] ∧
    (validateForm s).formIsValid = true ∧
    (validateForm s).toppingsError = false ∧
    (handleSubmit (validateForm s)).submissionStatus = some "success" := by
  have hv : (validateForm s).formIsValid = true :=
    (validateForm_formIsValid_iff s).mpr ⟨hname, hsize⟩
  refine ⟨?_, hv, ?_, ?_⟩
  · rw [validateForm_errors]
    rw [validateForm_formIsValid, decide_eq_true_iff] at hv
    exact hv
  · rw [validateForm_toppingsError]; simp [htop]
  · simp [handleSubmit, hv]

/-- C5 at the example of the specification. -/
theorem valid_input_accepted_witness :
    (validateForm { initialState with
      formData := ⟨"Jane Doe", "M", ["Pepperoni"]⟩ }).errors = [] ∧
    (validateForm { initialState with
      formData := ⟨"Jane Doe", "M", ["Pepperoni"]⟩ }).formIsValid = true ∧
    (validateForm { initialState with
      formData := ⟨"Jane Doe", "M", ["Pepperoni"]⟩ }).toppingsError = false ∧
    (handleSubmit (validateForm { initialState with
      formData := ⟨"Jane Doe", "M", ["Pepperoni"]⟩ })).submissionStatus = some "success" :=
  valid_input_accepted { initialState with formData := ⟨"Jane Doe", "M", ["Pepperoni"]⟩ }
    (by decide) (by decide) (by decide)

/-- C6: for every stored snapshot whose size is S, M or L the confirmation is
the fixed sentence with the name as stored, the word small, medium or large for
the size, and the phrase for the number of toppings: none, one, or the decimal
count followed by the plural. -/
theorem confirmation_format (s : State) (fullName size : String) (toppings : List String)
    (w : String) (hs : s.submittedData = some ⟨fullName, size, toppings⟩)
    (hw : sizeWord size = some w) :
    getSuccessMessage s =
      some ("Thank you for your order, " ++ fullName ++ "! Your " ++ w ++ " pizza with " ++
        toppingsPhrase toppings.length ++ " is on the way.") := by
  have hw2 : (if size = "S" then "small" else if size = "M" then "medium" else "large") = w := by
    unfold sizeWord at hw
    split_ifs at hw with h1 h2 h3 <;> simp_all
  have e0 : " pizza with " ++ "no toppings" ++ " is on the way." =
      " pizza with no toppings is on the way." := by decide
  have e1 : " pizza with " ++ "1 topping" ++ " is on the way." =
      " pizza with 1 topping is on the way." := by decide
  have e2 : (" toppings" : String) ++ " is on the way." = " toppings is on the way." := by decide
  unfold getSuccessMessage
  rw [hs]
  simp only [hw2]
  match toppings with
  | [] => simp [toppingsPhrase, String.append_assoc, e0]
  | [_] => simp [toppingsPhrase, String.append_assoc, e1]
  | _ :: _ :: t =>
    simp [toppingsPhrase, String.append_assoc, e2, jsNumberToString]

/-- C6 at the example of the specification, and at a snapshot with three
toppings. -/
theorem confirmation_format_witness :
    getSuccessMessage { initialState with
        submittedData := some ⟨"Jane Doe", "M", ["Pepperoni"]⟩ } =
      some "Thank you for your order, Jane Doe! Your medium pizza with 1 topping is on the way." ∧
    getSuccessMessage { initialState with
        submittedData := some ⟨" Al Capone ", "L", ["Ham", "Pineapple", "Mushrooms"]⟩ } =
      some "Thank you for your order,  Al Capone ! Your large pizza with 3 toppings is on the way." :=
  ⟨confirmation_format { initialState with
      submittedData := some ⟨"Jane Doe", "M", ["Pepperoni"]⟩ }
      "Jane Doe" "M" ["Pepperoni"] "medium" rfl (by decide),
   confirmation_format { initialState with
      submittedData := some ⟨" Al Capone ", "L", ["Ham", "Pineapple", "Mushrooms"]⟩ }
      " Al Capone " "L" ["Ham", "Pineapple", "Mushrooms"] "large" rfl (by decide)⟩

/-- C7: for every component state whose validity flag is set, the submit
handler reports success, stores the form data held before the submit, resets
the form data to the empty initial values, clears the validity flag and
empties the errors map. -/
theorem successful_submit (s : State) (h : s.formIsValid = true) :
    (handleSubmit s).submissionStatus = some "success" ∧
    (handleSubmit s).submittedData = some s.formData ∧
    (handleSubmit s).formData = { fullName := "", size := "", toppings := [] } ∧
    (handleSubmit s).formIsValid = false ∧
    (handleSubmit s).errors = [] := by
  simp [handleSubmit, h, initialFormData]

/-- C7 at the validated example order. -/
theorem successful_submit_witness :
    (handleSubmit (validateForm { initialState with
      formData := ⟨"Jane Doe", "M", ["Pepperoni"]⟩ })).submissionStatus = some "success" ∧
    (handleSubmit (validateForm { initialState with
      formData := ⟨"Jane Doe", "M", ["Pepperoni"]⟩ })).submittedData =
        some ⟨"Jane Doe", "M", ["Pepperoni"]⟩ ∧
    (handleSubmit (validateForm { initialState with
      formData := ⟨"Jane Doe", "M", ["Pepperoni"]⟩ })).formData =
        { fullName := "", size := "", toppings := [] } ∧
    (handleSubmit (validateForm { initialState with
      formData := ⟨"Jane Doe", "M", ["Pepperoni"]⟩ })).formIsValid = false ∧
    (handleSubmit (validateForm { initialState with
      formData := ⟨"Jane Doe", "M", ["Pepperoni"]⟩ })).errors = [] :=
  successful_submit (validateForm { initialState with
    formData := ⟨"Jane Doe", "M", ["Pepperoni"]⟩ }) (by decide)

/-- C8: for every component state whose validity flag is not set, the submit
handler reports an error and leaves the form data, the errors, the validity
flag, the toppings flag and the stored snapshot as they were. -/
theorem failed_submit (s : State) (h : s.formIsValid = false) :
    (handleSubmit s).submissionStatus = some "error" ∧
    (handleSubmit s).formData = s.formData ∧
    (handleSubmit s).errors = s.errors ∧
    (handleSubmit s).formIsValid = s.formIsValid ∧
    (handleSubmit s).toppingsError = s.toppingsError ∧
    (handleSubmit s).submittedData = s.submittedData := by
  simp [handleSubmit, h]

/-- C8 at a validated form with a short name and an earlier snapshot. -/
theorem failed_submit_witness :
    (handleSubmit (validateForm { initialState with
      formData := ⟨"Jo", "M", ["Ham"]⟩, submittedData := some ⟨"Ann", "S", []⟩ })).submissionStatus =
        some "error" ∧
    (handleSubmit (validateForm { initialState with
      formData := ⟨"Jo", "M", ["Ham"]⟩, submittedData := some ⟨"Ann", "S", []⟩ })).formData =
        ⟨"Jo", "M", ["Ham"]⟩ ∧
    (handleSubmit (validateForm { initialState with
      formData := ⟨"Jo", "M", ["Ham"]⟩, submittedData := some ⟨"Ann", "S", []⟩ })).submittedData =
        some ⟨"Ann", "S", []⟩ :=
  have h := failed_submit (validateForm { initialState with
      formData := ⟨"Jo", "M", ["Ham"]⟩, submittedData := some ⟨"Ann", "S", []⟩ }) (by decide)
  ⟨h.1, h.2.1, h.2.2.2.2.2⟩

/-- C9: for every state, label and flag, after the topping handler the label
is in the toppings exactly when the flag is set, every other label is in the
toppings exactly when it was before, the other labels keep their relative
order, and the name, the size and the other state cells are unchanged. -/
theorem topping_toggle (s : State) (name : String) (checked : Bool) :
    (name ∈ (handleToppingChange name checked s).formData.toppings ↔ checked = true) ∧
    (∀ other : String, other ≠ name →
      (other ∈ (handleToppingChange name checked s).formData.toppings ↔
        other ∈ s.formData.toppings)) ∧
    ((handleToppingChange name checked s).formData.toppings.filter (fun t => t ≠ name) =
      s.formData.toppings.filter (fun t => t ≠ name)) ∧
    (handleToppingChange name checked s).formData.fullName = s.formData.fullName ∧
    (handleToppingChange name checked s).formData.size = s.formData.size ∧
    (handleToppingChange name checked s).errors = s.errors ∧
    (handleToppingChange name checked s).formIsValid = s.formIsValid ∧
    (handleToppingChange name checked s).submissionStatus = s.submissionStatus ∧
    (handleToppingChange name checked s).submittedData = s.submittedData ∧
    (handleToppingChange name checked s).toppingsError = s.toppingsError := by
  cases checked
  · refine ⟨?_, ?_, ?_, rfl, rfl, rfl, rfl, rfl, rfl, rfl⟩
    · simp [handleToppingChange]
    · intro other hne
      simp [handleToppingChange, hne]
    · simp [handleToppingChange]
  · refine ⟨?_, ?_, ?_, rfl, rfl, rfl, rfl, rfl, rfl, rfl⟩
    · simp [handleToppingChange]
    · intro other hne
      simp [handleToppingChange, hne]
    · simp [handleToppingChange]

/-- C9 at the removal of a label next to another one. -/
theorem topping_toggle_witness :
    ("Mushrooms" ∈ (handleToppingChange "Ham" false { initialState with
        formData := ⟨"Jane Doe", "M", ["Ham", "Mushrooms", "Ham"]⟩ }).formData.toppings ↔
      "Mushrooms" ∈ ["Ham", "Mushrooms", "Ham"]) :=
  (topping_toggle { initialState with
    formData := ⟨"Jane Doe", "M", ["Ham", "Mushrooms", "Ham"]⟩ } "Ham" false).2.1
      "Mushrooms" (by decide)

/-- C10, as stated for every form state, fails: on the state the form reaches
by typing a name, choosing a size and ticking one topping, the topping handler
called with the flag set for that same label appends it a second time instead
of leaving the toppings unchanged, and the confirmation of that order counts
two toppings where one distinct topping is selected. -/
theorem topping_added_twice :
    (run [.change .fullName "Jane Doe", .change .size "M", .click "Pepperoni",
      .effect]).formData.toppings = ["Pepperoni"] ∧
    (handleToppingChange "Pepperoni" true (run [.change .fullName "Jane Doe",
      .change .size "M", .click "Pepperoni", .effect])).formData.toppings =
        ["Pepperoni", "Pepperoni"] ∧
    (handleToppingChange "Pepperoni" true (run [.change .fullName "Jane Doe",
      .change .size "M", .click "Pepperoni", .effect])).formData.toppings ≠
        (run [.change .fullName "Jane Doe", .change .size "M", .click "Pepperoni",
          .effect]).formData.toppings ∧
    ¬ (handleToppingChange "Pepperoni" true (run [.change .fullName "Jane Doe",
      .change .size "M", .click "Pepperoni", .effect])).formData.toppings.Nodup ∧
    getSuccessMessage (handleSubmit (validateForm (handleToppingChange "Pepperoni" true
      (run [.change .fullName "Jane Doe", .change .size "M", .click "Pepperoni",
        .effect])))) =
      some "Thank you for your order, Jane Doe! Your medium pizza with 2 toppings is on the way." ∧
    (["Pepperoni", "Pepperoni"] : List String).toFinset.card = 1 := by
  decide

/-- C10, amended: the topping handler called with the flag set appends the
label, and keeps the toppings free of duplicates when the label was absent; a
click on a checkbox calls the handler with the flag set only when the label is
absent and with the flag cleared when it is present.  So in every state
reached from the first render by changes of the two inputs, checkbox clicks,
validation runs and submits, no label occurs twice in the toppings or in the
stored snapshot, and the confirmation message of the stored snapshot reports
the number of distinct toppings of the snapshot. -/
theorem toppings_distinct (events : List Event) :
    (∀ (s : State) (label : String),
      (handleToppingChange label true s).formData.toppings = s.formData.toppings ++ [label]) ∧
    (∀ (s : State) (label : String), s.formData.toppings.Nodup → label ∉ s.formData.toppings →
      (handleToppingChange label true s).formData.toppings.Nodup) ∧
    (∀ (s : State) (label : String),
      (label ∈ s.formData.toppings → clickTopping label s = handleToppingChange label false s) ∧
      (label ∉ s.formData.toppings → clickTopping label s = handleToppingChange label true s)) ∧
    (run events).formData.toppings.Nodup ∧
    (∀ d : FormData, (run events).submittedData = some d →
      d.toppings.Nodup ∧
      d.toppings.length = d.toppings.toFinset.card ∧
      getSuccessMessage (run events) =
        some ("Thank you for your order, " ++ d.fullName ++ "! Your " ++
          (sizeWord d.size).getD "large" ++ " pizza with " ++
          toppingsPhrase d.toppings.toFinset.card ++ " is on the way.")) := by
  refine ⟨fun s label => rfl, ?_, ?_, (toppings_no_duplicates_run events).1, ?_⟩
  · intro s label hnd hmem
    show (s.formData.toppings ++ [label]).Nodup
    rw [List.nodup_append]
    exact ⟨hnd, List.nodup_singleton _, by simpa using hmem⟩
  · intro s label
    refine ⟨?_, ?_⟩
    · intro hmem
      simp [clickTopping, hmem]
    · intro hmem
      simp [clickTopping, hmem]
  · intro d hd
    have hnd := (toppings_no_duplicates_run events).2 d hd
    have hcard : d.toppings.toFinset.card = d.toppings.length :=
      List.toFinset_card_of_nodup hnd
    refine ⟨hnd, hcard.symm, ?_⟩
    rw [hcard]
    exact getSuccessMessage_of_snapshot _ d hd

/-- C10, amended, at a state with one topping and at an order in which one
checkbox is clicked three times and another once. -/
theorem toppings_distinct_witness :
    (handleToppingChange "Ham" true { initialState with
      formData := ⟨"", "", ["Pineapple"]⟩ }).formData.toppings.Nodup ∧
    clickTopping "Ham" { initialState with formData := ⟨"", "", ["Ham"]⟩ } =
      handleToppingChange "Ham" false { initialState with formData := ⟨"", "", ["Ham"]⟩ } ∧
    clickTopping "Ham" initialState = handleToppingChange "Ham" true initialState ∧
    ((["Ham", "Pepperoni"] : List String).Nodup ∧
      (["Ham", "Pepperoni"] : List String).length =
        (["Ham", "Pepperoni"] : List String).toFinset.card ∧
      getSuccessMessage (run [.click "Ham", .click "Ham", .click "Ham", .click "Pepperoni",
          .change .fullName "Jane Doe", .change .size "M", .effect, .submit]) =
        some ("Thank you for your order, " ++ "Jane Doe" ++ "! Your " ++
          (sizeWord "M").getD "large" ++ " pizza with " ++
          toppingsPhrase (["Ham", "Pepperoni"] : List String).toFinset.card ++
          " is on the way.")) :=
  ⟨(toppings_distinct []).2.1 { initialState with formData := ⟨"", "", ["Pineapple"]⟩ } "Ham"
      (by decide) (by decide),
   ((toppings_distinct []).2.2.1 { initialState with formData := ⟨"", "", ["Ham"]⟩ } "Ham").1
      (by decide),
   ((toppings_distinct []).2.2.1 initialState "Ham").2 (by decide),
   (toppings_distinct [.click "Ham", .click "Ham", .click "Ham", .click "Pepperoni",
      .change .fullName "Jane Doe", .change .size "M", .effect, .submit]).2.2.2.2
      ⟨"Jane Doe", "M", ["Ham", "Pepperoni"]⟩ (by decide)⟩

end PizzaForm
